import Mathlib

/-!
# Verification of the `motel` core against its specification

Shallow embedding of the `motel` repository (graph store traversal,
motif compiler, sparse image, ensemble classifiers, statistics) and
proofs settling the specification claims.

Conventions used throughout:
* Python floats are modelled as rationals (`ℚ`); `np.exp` is kept as an
  abstract positive function parameter where it occurs.
* Python object identity (relevant for dictionary keys of objects that
  do not define `__eq__`/`__hash__`) is modelled by an explicit
  allocation tag `oid` carried next to the structural data.
* Recursive database traversal is modelled with an explicit fuel
  parameter, since the source recursion is not structurally decreasing
  (its termination depends on edge weights being positive).
-/

namespace Motel

/-! ## settings.py -/

/-- `settings.EDGE_WEIGHTS` (settings.py line 10): the shipped edge-weight
configuration mapping.  The configured values are integer literals, so
weights and traversal distances are modelled in `ℤ`. -/
def edgeWeights : List (String × ℤ) := [("motel", 1), ("spacy", 1)]

/-- `settings.EDGE_WEIGHT_DEFAULT` (settings.py line 14). -/
def edgeWeightDefault : ℤ := 1

/-- `settings.CLASSIFICATION_THRESHOLD` (settings.py line 17). -/
def classificationThreshold : ℚ := 1 / 100

/-- `settings.ACCURACY_THRESHOLD` (settings.py line 18). -/
def accuracyThreshold : ℚ := 7 / 10

/-- `settings.LEARNING_RATE` (settings.py line 19). -/
def learningRate : ℚ := 10

/-! ## orm.py : edge weights and neighborhood traversal -/

/-- First-match association-list lookup, the behaviour of a Python dict
probe `d[k]` (returning `none` where Python raises `KeyError`). -/
def lookupKey {β : Type} : List (String × β) → String → Option β
  | [], _ => none
  | (k, v) :: rest, key => if key = k then some v else lookupKey rest key

/-- The characters before the first `:`. -/
def takeUntilColon : List Char → List Char
  | [] => []
  | c :: rest => if c = ':' then [] else c :: takeUntilColon rest

/-- `kind.split(":")[0]` — the label segment before the first `:` (the
whole label when it has no `:`). -/
def kindRoot (kind : String) : String := String.mk (takeUntilColon kind.data)

/-- `Edge.weight` (orm.py lines 101-109): exact-label lookup in
`EDGE_WEIGHTS`, then lookup of the label segment before `:`, then the
default constant.  The two `try`/`except: pass` blocks make each failed
lookup fall through to the next case; there is no validation of the
resolved value. -/
def resolveWeight (wts : List (String × ℤ)) (dflt : ℤ) (kind : String) : ℤ :=
  match lookupKey wts kind with
  | some w => w
  | none =>
    match lookupKey wts (kindRoot kind) with
    | some w => w
    | none => dflt

/-- A stored edge: source vertex id, destination vertex id, label
(orm.py `Edge`: `kind`, `source`, `destination`). -/
structure GEdge where
  src : Nat
  dst : Nat
  kind : String
deriving DecidableEq, Repr

/-- A stored graph, as the list of its edges (vertices are the `Nat`
identifiers occurring in them). -/
structure Graph where
  edges : List GEdge
deriving DecidableEq, Repr

/-- `Vertex.incoming`: edges whose destination is the vertex. -/
def incoming (g : Graph) (v : Nat) : List GEdge :=
  g.edges.filter (fun e => e.dst = v)

/-- `Vertex.outgoing`: edges whose source is the vertex. -/
def outgoing (g : Graph) (v : Nat) : List GEdge :=
  g.edges.filter (fun e => e.src = v)

/-- `Vertex.neighbors` (orm.py lines 55-63), with an explicit fuel
parameter bounding the recursion depth (the source recursion has no
structural bound; with the shipped strictly positive weights any fuel
at least `distance + 1` is enough).

Mirrors the source exactly, including line 63: for an *outgoing* edge
the generator yields `edge.destination` but recurses on
`edge.source.neighbors(distance - edge.weight)` — the source vertex,
i.e. the vertex currently being expanded — not the destination. -/
def neighbors (wts : List (String × ℤ)) (dflt : ℤ) (g : Graph) :
    Nat → Nat → ℤ → List Nat
  | 0, _, _ => []
  | fuel + 1, v, distance =>
    ((incoming g v).filter (fun e => resolveWeight wts dflt e.kind ≤ distance)).flatMap
      (fun e => e.src :: neighbors wts dflt g fuel e.src (distance - resolveWeight wts dflt e.kind))
    ++
    ((outgoing g v).filter (fun e => resolveWeight wts dflt e.kind ≤ distance)).flatMap
      (fun e => e.dst :: neighbors wts dflt g fuel e.src (distance - resolveWeight wts dflt e.kind))

/-- `Edge.between(*vertices)` (orm.py lines 111-113): all edges whose
source and destination both lie in the given vertex set. -/
def between (g : Graph) (vertices : Finset Nat) : List GEdge :=
  g.edges.filter (fun e => e.src ∈ vertices ∧ e.dst ∈ vertices)

/-- `neighborhood(origin, distance)` (orm.py lines 117-148):
`vertices = set(origin.neighbors(distance))`,
`edges = set(Edge.between(*vertices))`. -/
def neighborhood (wts : List (String × ℤ)) (dflt : ℤ) (fuel : Nat)
    (g : Graph) (origin : Nat) (distance : ℤ) : Finset Nat × List GEdge :=
  let vertices := (neighbors wts dflt g fuel origin distance).toFinset
  (vertices, between g vertices)

/-! ## motifs.py : the motif compiler -/

/-- A JSON-like value, the representation handled by `to_json`/`of_json`
and `Motif.__init__` in the source (string and integer scalars, objects
with ordered fields, arrays). -/
inductive Json where
  | str : String → Json
  | num : Int → Json
  | obj : List (String × Json) → Json
  | arr : List Json → Json

/-- Field access `j[k]` on a JSON object (`none` where Python raises
`KeyError` or the value is not an object). -/
def getKey (j : Json) (key : String) : Option Json :=
  match j with
  | Json.obj fields => lookupKey fields key
  | _ => none

/-- `to_sql(identifier)` (motifs.py lines 7-20). -/
def toSql (identifier : Int) : String := "_" ++ toString identifier

namespace Motifs

/-- `Predicate` (motifs.py lines 22-53): an (attribute-kind,
attribute-value) equality constraint.  Attribute values are strings in
the store (`Attribute.value` is `Required(str)`). -/
structure Predicate where
  key : String
  value : String
deriving DecidableEq, Repr

/-- `Predicate.subquery` (motifs.py line 53). -/
def Predicate.subquery (p : Predicate) : String :=
  "SELECT vertex FROM Attribute WHERE kind = \"" ++ p.key ++
    "\" AND value = \"" ++ p.value ++ "\""

/-- `Filter` (motifs.py lines 55-110): a conjunction of predicates,
constructed from the ordered fields of a JSON object. -/
structure Filter where
  predicates : List Predicate
deriving DecidableEq, Repr

/-- `Filter.where_clause` (motifs.py lines 87-92): starts from `"TRUE"`
and prepends one membership test per predicate, in list order. -/
def Filter.whereClause (f : Filter) : String :=
  f.predicates.foldl
    (fun result p => "id in (" ++ p.subquery ++ ") AND " ++ result)
    "TRUE"

/-- `Filter.is_empty` (motifs.py lines 94-96). -/
def Filter.isEmptyF (f : Filter) : Bool := f.predicates.isEmpty

/-- `Filter.to_json` (motifs.py lines 98-110). -/
def Filter.toJson (f : Filter) : Json :=
  Json.obj (f.predicates.map (fun p => (p.key, Json.str p.value)))

/-- `Filter.__init__` (motifs.py lines 80-81): one predicate per field of
the JSON object, in field order; no validation is performed. -/
def Filter.ofJson : Json → Option Filter
  | Json.obj fields =>
    match decodePredicates fields with
    | some ps => some ⟨ps⟩
    | none => none
  | _ => none
where
  decodePredicates : List (String × Json) → Option (List Predicate)
    | [] => some []
    | (k, Json.str v) :: rest =>
      match decodePredicates rest with
      | some ps => some (⟨k, v⟩ :: ps)
      | none => none
    | _ => none

/-- `Edge` (motifs.py lines 112-163): a directed, labeled connection
between motif-local vertex identifiers. -/
structure Edge where
  source : Int
  destination : Int
  label : String
deriving DecidableEq, Repr

/-- `Edge.select_statement` (motifs.py lines 143-145). -/
def Edge.selectStatement (e : Edge) : String :=
  "SELECT source AS " ++ toSql e.source ++ ", destination AS " ++
    toSql e.destination ++ " FROM Edge WHERE kind = \"" ++ e.label ++ "\""

/-- `Edge.to_json` (motifs.py lines 147-163). -/
def Edge.toJson (e : Edge) : Json :=
  Json.obj [("source", Json.num e.source),
            ("destination", Json.num e.destination),
            ("label", Json.str e.label)]

/-- `Edge.__init__` (motifs.py lines 135-138): reads the `source`,
`destination` and `label` keys; no validation of the referenced ids. -/
def Edge.ofJson (j : Json) : Option Edge :=
  match getKey j "source", getKey j "destination", getKey j "label" with
  | some (Json.num s), some (Json.num d), some (Json.str l) => some ⟨s, d, l⟩
  | _, _, _ => none

/-- `Vertex` (motifs.py lines 165-219): a motif-local identifier together
with a filter. -/
structure Vertex where
  identifier : Int
  filter : Filter
deriving DecidableEq, Repr

/-- `Vertex.select_statement` (motifs.py lines 197-202). -/
def Vertex.selectStatement (v : Vertex) : String :=
  if v.filter.isEmptyF then
    "SELECT id AS " ++ toSql v.identifier ++ " FROM Vertex"
  else
    "SELECT id AS " ++ toSql v.identifier ++ " FROM Vertex WHERE " ++
      v.filter.whereClause

/-- `Vertex.to_json` (motifs.py lines 204-219). -/
def Vertex.toJson (v : Vertex) : Json :=
  Json.obj [("identifier", Json.num v.identifier),
            ("label", v.filter.toJson)]

/-- `Vertex.__init__` (motifs.py lines 190-192). -/
def Vertex.ofJson (j : Json) : Option Vertex :=
  match getKey j "identifier", getKey j "label" with
  | some (Json.num i), some lbl =>
    match Filter.ofJson lbl with
    | some f => some ⟨i, f⟩
    | none => none
  | _, _ => none

/-- `Motif` (motifs.py lines 221-294): selector local id, vertices,
edges.  The source documents `Assume selector in vertices` but performs
no check of it. -/
structure Motif where
  selector : Int
  vertices : List Vertex
  edges : List Edge
deriving DecidableEq, Repr

/-- Element-wise decoding of the `structure.vertices` array. -/
def decodeVertices : List Json → Option (List Vertex)
  | [] => some []
  | j :: rest =>
    match Vertex.ofJson j, decodeVertices rest with
    | some v, some vs => some (v :: vs)
    | _, _ => none

/-- Element-wise decoding of the `structure.edges` array. -/
def decodeEdges : List Json → Option (List Edge)
  | [] => some []
  | j :: rest =>
    match Edge.ofJson j, decodeEdges rest with
    | some e, some es => some (e :: es)
    | _, _ => none

/-- `Motif.__init__` (motifs.py lines 251-254): reads `selector`,
`structure.vertices`, `structure.edges`; performs no structural
validation (neither that the selector occurs among the vertex ids nor
that edge endpoints are declared). -/
def Motif.ofJson (j : Json) : Option Motif :=
  match getKey j "selector", getKey j "structure" with
  | some (Json.num sel), some st =>
    match getKey st "vertices", getKey st "edges" with
    | some (Json.arr vs), some (Json.arr es) =>
      match decodeVertices vs, decodeEdges es with
      | some vertices, some edges => some ⟨sel, vertices, edges⟩
      | _, _ => none
    | _, _ => none
  | _, _ => none

/-- `Motif.to_json` (motifs.py lines 276-294): note the `edges` field is
emitted before `vertices`. -/
def Motif.toJson (m : Motif) : Json :=
  Json.obj [("selector", Json.num m.selector),
            ("structure",
              Json.obj [("edges", Json.arr (m.edges.map Edge.toJson)),
                        ("vertices", Json.arr (m.vertices.map Vertex.toJson))])]

/-- The parenthesized sub-selections of `Motif.query` (motifs.py line
258): vertices first, then edges. -/
def Motif.statements (m : Motif) : List String :=
  (m.vertices.map Vertex.selectStatement ++ m.edges.map Edge.selectStatement).map
    (fun s => "(" ++ s ++ ")")

/-- `Motif.query` (motifs.py lines 256-259): a `SELECT DISTINCT` on the
selector's column over the natural join of all sub-selections.  Total:
a query string is produced for every motif, valid or not. -/
def Motif.query (m : Motif) : String :=
  "SELECT DISTINCT " ++ toSql m.selector ++ " FROM " ++
    String.intercalate " NATURAL JOIN " m.statements

end Motifs

/-! ## img.py : points and sparse images -/

/-- `Point` (img.py lines 10-77): a (document filepath, vertex
identifier) pair.  `__eq__`/`__hash__` compare by value. -/
structure Point where
  filepath : String
  identifier : Int
deriving DecidableEq, Repr

/-- `Point.to_json` (img.py lines 36-51). -/
def Point.toJson (p : Point) : Json :=
  Json.obj [("file", Json.str p.filepath), ("identifier", Json.num p.identifier)]

/-- `Point.of_json` (img.py lines 56-74). -/
def Point.ofJson (j : Json) : Option Point :=
  match getKey j "file", getKey j "identifier" with
  | some (Json.str f), some (Json.num i) => some ⟨f, i⟩
  | _, _ => none

/-- Element-wise decoding of a dumped point list. -/
def decodePoints : List Json → Option (List Point)
  | [] => some []
  | j :: rest =>
    match Point.ofJson j, decodePoints rest with
    | some p, some ps => some (p :: ps)
    | _, _ => none

/-- A `Motif` object: its structural data plus an allocation tag `oid`
modelling Python object identity.  `motifs.Motif` defines neither
`__eq__` nor `__hash__`, so the sparse image's `rows` dictionary keys
motifs by identity, not by structure. -/
structure MotifObj where
  oid : Nat
  data : Motifs.Motif
deriving DecidableEq, Repr

/-- First-match lookup in the identity-keyed `rows` dictionary, with the
`defaultdict(lambda: [])` default of an empty list for a missing key. -/
def rowsLookup : List (Nat × List Point) → Nat → List Point
  | [], _ => []
  | (k, ps) :: rest, key => if key = k then ps else rowsLookup rest key

/-- `rows[oid] += pts`: append to the existing entry, or create one from
the defaultdict's empty list. -/
def rowsAppend : List (Nat × List Point) → Nat → List Point → List (Nat × List Point)
  | [], key, pts => [(key, pts)]
  | (k, ps) :: rest, key, pts =>
    if key = k then (k, ps ++ pts) :: rest else (k, ps) :: rowsAppend rest key pts

/-- `SparseImage` (img.py lines 79-231): the registered motif objects and
the identity-keyed rows dictionary. -/
structure SparseImage where
  motifs : List MotifObj
  rows : List (Nat × List Point)
deriving DecidableEq, Repr

/-- `SparseImage.__init__` (img.py lines 93-96). -/
def SparseImage.empty : SparseImage := ⟨[], []⟩

/-- `SparseImage.register_motif` (img.py lines 98-110): appends to the
motif list. -/
def registerMotif (img : SparseImage) (m : MotifObj) : SparseImage :=
  { img with motifs := img.motifs ++ [m] }

/-- `SparseImage.motif_domain` (img.py lines 207-224): the rows entry for
the given motif object. -/
def motifDomainI (img : SparseImage) (m : MotifObj) : List Point :=
  rowsLookup img.rows m.oid

/-- `SparseImage.evaluate_motifs` (img.py lines 131-151): for every
registered motif, append the points the document evaluation returns for
it to that motif's row.  The per-motif evaluation result (a database
query against the document) is abstracted as the function `f`. -/
def evaluateMotifs (img : SparseImage) (f : MotifObj → List Point) : SparseImage :=
  { img with
    rows := img.motifs.foldl (fun rows m => rowsAppend rows m.oid (f m)) img.rows }

/-- `SparseImage.domain` (img.py lines 226-231): concatenation of every
registered motif's row, in registration order (not deduplicated). -/
def domainList (img : SparseImage) : List Point :=
  img.motifs.flatMap (fun m => motifDomainI img m)

/-- `SparseImage.dump` (img.py lines 153-175), at the level of the JSON
values written: one entry per registered motif, carrying the motif's
JSON and its row's point JSONs (the surrounding `json.dumps` text
framing belongs to Python's json library). -/
def dumpImage (img : SparseImage) : List (Json × List Json) :=
  img.motifs.map (fun m => (m.data.toJson, (motifDomainI img m).map Point.toJson))

/-- The entry loop of `SparseImage.load` (img.py lines 195-204): each
line constructs a fresh `Motif` object (fresh identity, numbered here by
the allocation counter `n`), registers it, and stores the decoded points
as its row. -/
def loadEntries : Nat → List (Json × List Json) → Option (List MotifObj × List (Nat × List Point))
  | _, [] => some ([], [])
  | n, (mj, pjs) :: rest =>
    match Motifs.Motif.ofJson mj, decodePoints pjs, loadEntries (n + 1) rest with
    | some md, some pts, some (ms, rows) => some (⟨n, md⟩ :: ms, (n, pts) :: rows)
    | _, _, _ => none

/-- `SparseImage.load` (img.py lines 177-205). -/
def loadImage (entries : List (Json × List Json)) : Option SparseImage :=
  match loadEntries 0 entries with
  | some (ms, rows) => some ⟨ms, rows⟩
  | none => none

/-! ## ensembles.py -/

/-- Sum of a list of rationals. -/
def sumList (xs : List ℚ) : ℚ := xs.foldr (fun a b => a + b) 0

/-- Dot product of two vectors given as lists (`row @ w`). -/
def dot (xs ys : List ℚ) : ℚ := sumList (List.zipWith (fun a b => a * b) xs ys)

/-- `np.max` over a vector, written for nonempty input (on an empty
vector `np.max` raises; the `0` returned here is never relied on). -/
def maxList : List ℚ → ℚ
  | [] => 0
  | x :: xs => xs.foldl max x

/-- The inclusion matrix built by `Ensemble.__init__` (ensembles.py lines
34-38): one 0/1 row per motif, listing the points of the image domain it
selects, then `np.transpose` — so entry `[point][motif]` is 1 exactly
when the point lies in the motif's row of the image at construction
time. -/
def inclusionMatrix (img : SparseImage) : List (List ℚ) :=
  (domainList img).map (fun p =>
    img.motifs.map (fun m => if p ∈ motifDomainI img m then (1 : ℚ) else 0))

/-- The construction-time snapshot an ensemble keeps: `_point_map` is a
copy (`list(image.domain)`, ensembles.py line 32) and `_inclusion` is
built once (line 38).  `_motif_map` and `_image` are *aliases* of the
live image (lines 31 and 33) and are therefore modelled as functions of
the current image below, not stored here. -/
structure EnsembleSnap where
  pointMap : List Point
  inclusion : List (List ℚ)
deriving DecidableEq, Repr

/-- `Ensemble.__init__` (ensembles.py lines 28-39), restricted to the
parts that are snapshots. -/
def mkEnsemble (img : SparseImage) : EnsembleSnap :=
  ⟨domainList img, inclusionMatrix img⟩

/-- `Ensemble.size` (ensembles.py lines 88-90): `len(self._motif_map)`.
Because `_motif_map` aliases `image.motifs`, this reads the *current*
image. -/
def ensembleSize (current : SparseImage) : Nat := current.motifs.length

/-- `Ensemble.motif_domain` (ensembles.py lines 100-117): delegates to
`self._image.motif_domain(motif)`, i.e. reads the *current* image. -/
def ensembleMotifDomain (current : SparseImage) (m : MotifObj) : List Point :=
  motifDomainI current m

/-- `Disjunction.update` (ensembles.py lines 226-246): append the
observation, then recompute one accuracy per motif.  Mirrors the source
exactly: `prediction` is computed once per motif from the *newly
observed* point (the `(point, classification)` pattern in the list
comprehension on line 241 shadows the outer `point` without `prediction`
being recomputed per observation), and `correct` counts the observations
whose recorded classification equals that single prediction. -/
def disjUpdate (img : SparseImage) (k : ℚ) (obs : List (Point × Bool))
    (point : Point) (classification : Bool) :
    List (Point × Bool) × List ℚ :=
  let obs2 := obs ++ [(point, classification)]
  let accuracies := img.motifs.map (fun m =>
    let prediction := decide (point ∈ motifDomainI img m)
    let correct := (obs2.filter (fun pc => prediction = pc.2)).length
    ((correct : ℚ) + k) / ((obs2.length : ℚ) + k))
  (obs2, accuracies)

/-- Modelled from the spec (§4.5), for comparison with `disjUpdate`:
the Laplace-smoothed closed form
`accuracy(m) = (correct_predictions(m) + k) / (total_observations + k)`
where `correct_predictions(m)` counts the observations `(p, c)` for
which the prediction `p ∈ motif_domain(m)` equals `c`. -/
def disjAccuracySpec (img : SparseImage) (k : ℚ) (obs : List (Point × Bool)) : List ℚ :=
  img.motifs.map (fun m =>
    let correct := (obs.filter (fun pc => decide (pc.1 ∈ motifDomainI img m) = pc.2)).length
    ((correct : ℚ) + k) / ((obs.length : ℚ) + k))

/-- `Disjunction._relevant_motifs` (ensembles.py lines 248-264): the 0/1
indicator of accuracies at or above `settings.ACCURACY_THRESHOLD`. -/
def relevantMotifs (accuracies : List ℚ) : List ℚ :=
  accuracies.map (fun a => if accuracyThreshold ≤ a then (1 : ℚ) else 0)

/-- Floating-point division as performed by NumPy: division by zero
produces `inf`/`nan` (with a runtime warning), not a number in `[0,1]`;
modelled as `none`. -/
def npDiv (a b : ℚ) : Option ℚ := if b = 0 then none else some (a / b)

/-- `MajorityVote.probabilities` (ensembles.py lines 315-327):
`counts_for = inclusion @ relevant` then `counts_for / self.size`, where
`Disjunction.size` (lines 284-287) is `np.sum(self._relevant_motifs())`. -/
def mvProbabilities (inclusion : List (List ℚ)) (accuracies : List ℚ) :
    List (Option ℚ) :=
  let relevant := relevantMotifs accuracies
  let countsFor := inclusion.map (fun row => dot row relevant)
  countsFor.map (fun c => npDiv c (sumList relevant))

/-- `WeightedVote.probabilities` (ensembles.py lines 398-417), with
`np.exp` abstracted as `expF`.  The final line mirrors the source's
`return plus / plus + minus`, which by NumPy operator precedence is the
element-wise `(plus / plus) + minus`. -/
def wvProbabilities (expF : ℚ → ℚ) (inclusion : List (List ℚ))
    (wc fpr : List ℚ) : List ℚ :=
  let wi := List.zipWith (fun a b => a - 2 * b) wc fpr
  let sPlus := inclusion.map (fun row => dot row wi)
  let sMinus := inclusion.map (fun row => dot (row.map (fun x => 1 - x)) wi)
  let denom := max (maxList sPlus) (maxList sMinus)
  let plus := sPlus.map (fun s => expF (s / denom))
  let minus := sMinus.map (fun s => expF (s / denom))
  List.zipWith (fun p m => p / p + m) plus minus

/-- Modelled from the spec (§4.6), for comparison with
`wvProbabilities`: identical scores and normalization, combined as
`probability = exp(s⁺/denom) / (exp(s⁺/denom) + exp(s⁻/denom))`. -/
def wvProbabilitiesSpec (expF : ℚ → ℚ) (inclusion : List (List ℚ))
    (wc fpr : List ℚ) : List ℚ :=
  let wi := List.zipWith (fun a b => a - 2 * b) wc fpr
  let sPlus := inclusion.map (fun row => dot row wi)
  let sMinus := inclusion.map (fun row => dot (row.map (fun x => 1 - x)) wi)
  let denom := max (maxList sPlus) (maxList sMinus)
  let plus := sPlus.map (fun s => expF (s / denom))
  let minus := sMinus.map (fun s => expF (s / denom))
  List.zipWith (fun p m => p / (p + m)) plus minus

/-! ## stats.py -/

/-- `statistics(prediction, ground_truth, beta)` (stats.py lines 8-42).
`true_positives = ground_truth & prediction`,
`false_positives = prediction - ground_truth`; precision is guarded by
the `len(prediction) == 0` check and f_beta by the
`precision == 0.0 and recall == 0.0` check.  Python raises
`ZeroDivisionError` when `ground_truth` is empty; every theorem about
this definition carries a nonemptiness hypothesis, matching the spec's
"ground truth assumed non-empty". -/
def statistics {α : Type} [DecidableEq α] (prediction ground_truth : Finset α)
    (beta : ℚ) : ℚ × ℚ × ℚ :=
  let truePositives := ground_truth ∩ prediction
  let falsePositives := prediction \ ground_truth
  let precision : ℚ :=
    if prediction.card = 0 then 0
    else (truePositives.card : ℚ) / ((truePositives.card : ℚ) + (falsePositives.card : ℚ))
  let recall' : ℚ := (truePositives.card : ℚ) / (ground_truth.card : ℚ)
  let fBeta : ℚ :=
    if precision = 0 ∧ recall' = 0 then 0
    else (1 + beta ^ 2) * (precision * recall') / (beta ^ 2 * precision + recall')
  (precision, recall', fBeta)

/-- Modelled from the spec (§4.8), for comparison with `statistics`:
precision `|P ∩ T| / |P|` (0 when `P` is empty), recall `|P ∩ T| / |T|`,
and `f_beta = (1+β²)·P·R / (β²·P + R)` (0 when both are 0). -/
def statisticsSpec {α : Type} [DecidableEq α] (prediction ground_truth : Finset α)
    (beta : ℚ) : ℚ × ℚ × ℚ :=
  let precision : ℚ :=
    if prediction.card = 0 then 0
    else ((prediction ∩ ground_truth).card : ℚ) / (prediction.card : ℚ)
  let recall' : ℚ := ((prediction ∩ ground_truth).card : ℚ) / (ground_truth.card : ℚ)
  let fBeta : ℚ :=
    if precision = 0 ∧ recall' = 0 then 0
    else (1 + beta ^ 2) * (precision * recall') / (beta ^ 2 * precision + recall')
  (precision, recall', fBeta)

/-- One step of the loop of `min_absolute_logit` (stats.py lines
98-104): the state is the current best `(point_min, logit_min)`, with
`logit_min = none` standing for the initial `inf`. -/
def malStep (domain : List Point) (st : Option Point × Option ℚ)
    (pp : Point × ℚ) : Option Point × Option ℚ :=
  if pp.1 ∈ domain then
    let absLogit := |pp.2 - (1 - pp.2)|
    match st.2 with
    | none => (some pp.1, some absLogit)
    | some m => if absLogit ≤ m then (some pp.1, some absLogit) else st
  else st

/-- `min_absolute_logit(ensemble, domain)` (stats.py lines 79-104),
with `ensemble.probabilities_per_point()` supplied as the list of
(point, probability) pairs. -/
def minAbsoluteLogit (pairs : List (Point × ℚ)) (domain : List Point) :
    Option Point :=
  (pairs.foldl (malStep domain) (none, none)).1

/-! ## Concrete objects used by several claims -/

/-- A single-vertex motif with an empty filter. -/
def mA : Motifs.Motif := ⟨0, [⟨0, ⟨[]⟩⟩], []⟩

/-- A point of some document. -/
def pA : Point := ⟨"doc", 1⟩

/-- A second point of the same document. -/
def pB : Point := ⟨"doc", 2⟩

/-- A sparse image built through the API: one registered motif object
(`oid 0`, structure `mA`) whose evaluation selected exactly `pA`. -/
def imgOne : SparseImage :=
  evaluateMotifs (registerMotif SparseImage.empty ⟨0, mA⟩) (fun _ => [pA])

/-- A structurally ill-formed motif, as JSON: the selector `5` is not
among the vertex identifiers (only `1` is declared), and the single edge
references the undeclared local id `2`. -/
def badMotifJson : Json :=
  Json.obj
    [("selector", Json.num 5),
     ("structure",
       Json.obj
         [("vertices",
            Json.arr [Json.obj [("identifier", Json.num 1), ("label", Json.obj [])]]),
          ("edges",
            Json.arr [Json.obj [("source", Json.num 1),
                                ("destination", Json.num 2),
                                ("label", Json.str "e")]])])]

/-- The motif value `Motif.__init__` builds from `badMotifJson`. -/
def badMotif : Motifs.Motif := ⟨5, [⟨1, ⟨[]⟩⟩], [⟨1, 2, "e"⟩]⟩

/-! ## Helper lemmas -/

lemma rowsLookup_rowsAppend (rows : List (Nat × List Point)) (key : Nat)
    (pts : List Point) :
    rowsLookup (rowsAppend rows key pts) key = rowsLookup rows key ++ pts := by
  induction rows with
  | nil => simp [rowsAppend, rowsLookup]
  | cons hd tl ih =>
    obtain ⟨k, ps⟩ := hd
    by_cases h : key = k
    · subst h
      simp [rowsAppend, rowsLookup]
    · simp [rowsAppend, rowsLookup, h, ih]

lemma decodePredicates_map (ps : List Motifs.Predicate) :
    Motifs.Filter.ofJson.decodePredicates
      (ps.map (fun p => (p.key, Json.str p.value))) = some ps := by
  induction ps with
  | nil => rfl
  | cons p rest ih => simp [Motifs.Filter.ofJson.decodePredicates, ih]

lemma filter_roundtrip (f : Motifs.Filter) :
    Motifs.Filter.ofJson (Motifs.Filter.toJson f) = some f := by
  obtain ⟨ps⟩ := f
  simp [Motifs.Filter.toJson, Motifs.Filter.ofJson, decodePredicates_map]

lemma vertex_roundtrip (v : Motifs.Vertex) :
    Motifs.Vertex.ofJson (Motifs.Vertex.toJson v) = some v := by
  obtain ⟨i, f⟩ := v
  simp [Motifs.Vertex.ofJson, Motifs.Vertex.toJson, getKey, lookupKey, filter_roundtrip]

lemma edge_roundtrip (e : Motifs.Edge) :
    Motifs.Edge.ofJson (Motifs.Edge.toJson e) = some e := rfl

lemma decodeVertices_map (vs : List Motifs.Vertex) :
    Motifs.decodeVertices (vs.map Motifs.Vertex.toJson) = some vs := by
  induction vs with
  | nil => rfl
  | cons v rest ih => simp [Motifs.decodeVertices, vertex_roundtrip, ih]

lemma decodeEdges_map (es : List Motifs.Edge) :
    Motifs.decodeEdges (es.map Motifs.Edge.toJson) = some es := by
  induction es with
  | nil => rfl
  | cons e rest ih => simp [Motifs.decodeEdges, edge_roundtrip, ih]

lemma motif_roundtrip (m : Motifs.Motif) :
    Motifs.Motif.ofJson (Motifs.Motif.toJson m) = some m := by
  obtain ⟨sel, vs, es⟩ := m
  simp [Motifs.Motif.ofJson, Motifs.Motif.toJson, getKey, lookupKey,
    decodeVertices_map, decodeEdges_map]

lemma point_roundtrip (p : Point) : Point.ofJson (Point.toJson p) = some p := rfl

lemma decodePoints_map (ps : List Point) :
    decodePoints (ps.map Point.toJson) = some ps := by
  induction ps with
  | nil => rfl
  | cons p rest ih => simp [decodePoints, point_roundtrip, ih]

lemma loadEntries_dump (rows : List (Nat × List Point)) :
    ∀ (ms : List MotifObj) (n : Nat),
    ∃ ms' rows',
      loadEntries n
          (ms.map (fun m => (m.data.toJson, (rowsLookup rows m.oid).map Point.toJson)))
        = some (ms', rows')
      ∧ ms'.map MotifObj.data = ms.map MotifObj.data
      ∧ (∀ m' ∈ ms', n ≤ m'.oid)
      ∧ ms'.map (fun m' => rowsLookup rows' m'.oid)
          = ms.map (fun m => rowsLookup rows m.oid) := by
  intro ms
  induction ms with
  | nil =>
    intro n
    exact ⟨[], [], rfl, rfl, by simp, rfl⟩
  | cons m rest ih =>
    intro n
    obtain ⟨ms'', rows'', hload, hdata, hoid, hrows⟩ := ih (n + 1)
    refine ⟨⟨n, m.data⟩ :: ms'', (n, rowsLookup rows m.oid) :: rows'', ?_, ?_, ?_, ?_⟩
    · simp [loadEntries, motif_roundtrip, decodePoints_map, hload]
    · simp [hdata]
    · intro m' hm'
      rcases List.mem_cons.mp hm' with h | h
      · subst h; exact Nat.le_refl n
      · exact Nat.le_of_succ_le (hoid m' h)
    · have hskip : ∀ m' ∈ ms'',
          rowsLookup ((n, rowsLookup rows m.oid) :: rows'') m'.oid
            = rowsLookup rows'' m'.oid := by
        intro m' hm'
        have h1 : n + 1 ≤ m'.oid := hoid m' hm'
        have h2 : m'.oid ≠ n := by omega
        simp [rowsLookup, h2]
      simp only [List.map_cons]
      rw [List.map_congr_left hskip, hrows]
      simp [rowsLookup]

lemma sumList_nonneg (xs : List ℚ) (h : ∀ x ∈ xs, 0 ≤ x) : 0 ≤ sumList xs := by
  induction xs with
  | nil => simp [sumList]
  | cons x rest ih =>
    have hx := h x (List.mem_cons_self x rest)
    have hr := ih (fun y hy => h y (List.mem_cons_of_mem x hy))
    simp only [sumList, List.foldr_cons] at hr ⊢
    linarith

lemma dot_nonneg (xs ys : List ℚ) (hx : ∀ x ∈ xs, 0 ≤ x)
    (hy : ∀ y ∈ ys, 0 ≤ y) : 0 ≤ dot xs ys := by
  induction xs generalizing ys with
  | nil => simp [dot, sumList]
  | cons x rest ih =>
    cases ys with
    | nil => simp [dot, sumList]
    | cons y tl =>
      have h1 : 0 ≤ x * y :=
        mul_nonneg (hx x (List.mem_cons_self x rest)) (hy y (List.mem_cons_self y tl))
      have h2 : 0 ≤ dot rest tl :=
        ih tl (fun a ha => hx a (List.mem_cons_of_mem x ha))
          (fun b hb => hy b (List.mem_cons_of_mem y hb))
      simp only [dot, sumList, List.zipWith_cons_cons, List.foldr_cons] at h2 ⊢
      linarith

lemma dot_le_sumList (xs ys : List ℚ) (hx : ∀ x ∈ xs, x ≤ 1)
    (hy : ∀ y ∈ ys, 0 ≤ y) : dot xs ys ≤ sumList ys := by
  induction xs generalizing ys with
  | nil =>
    simpa [dot, sumList] using sumList_nonneg ys hy
  | cons x rest ih =>
    cases ys with
    | nil => simp [dot, sumList]
    | cons y tl =>
      have h1 : x * y ≤ y :=
        mul_le_of_le_one_left (hy y (List.mem_cons_self y tl)) (hx x (List.mem_cons_self x rest))
      have h2 : dot rest tl ≤ sumList tl :=
        ih tl (fun a ha => hx a (List.mem_cons_of_mem x ha))
          (fun b hb => hy b (List.mem_cons_of_mem y hb))
      simp only [dot, sumList, List.zipWith_cons_cons, List.foldr_cons] at h2 ⊢
      linarith

lemma relevantMotifs_mem (accuracies : List ℚ) :
    ∀ x ∈ relevantMotifs accuracies, x = 0 ∨ x = 1 := by
  intro x hx
  simp only [relevantMotifs, List.mem_map] at hx
  obtain ⟨a, -, ha⟩ := hx
  by_cases h : accuracyThreshold ≤ a
  · right; rw [← ha, if_pos h]
  · left; rw [← ha, if_neg h]

lemma inclusionMatrix_mem (img : SparseImage) :
    ∀ row ∈ inclusionMatrix img, ∀ x ∈ row, x = 0 ∨ x = 1 := by
  intro row hrow x hx
  simp only [inclusionMatrix, List.mem_map] at hrow
  obtain ⟨p, _, hp⟩ := hrow
  subst hp
  simp only [List.mem_map] at hx
  obtain ⟨m, -, hm⟩ := hx
  by_cases h : p ∈ motifDomainI img m
  · right; rw [← hm, if_pos h]
  · left; rw [← hm, if_neg h]

lemma foldl_malStep_skip (domain : List Point) :
    ∀ (pairs : List (Point × ℚ)) (st : Option Point × Option ℚ),
    (∀ pp ∈ pairs, pp.1 ∉ domain) →
    pairs.foldl (malStep domain) st = st := by
  intro pairs
  induction pairs with
  | nil => intro st _; rfl
  | cons pp rest ih =>
    intro st h
    have h1 : pp.1 ∉ domain := h pp (List.mem_cons_self pp rest)
    have hstep : malStep domain st pp = st := by simp [malStep, h1]
    simp only [List.foldl_cons, hstep]
    exact ih st (fun q hq => h q (List.mem_cons_of_mem pp hq))

lemma foldl_malStep_mem (domain : List Point) :
    ∀ (pairs : List (Point × ℚ)) (st : Option Point × Option ℚ) (pt : Point),
    (pairs.foldl (malStep domain) st).1 = some pt →
    st.1 = some pt ∨ (pt ∈ domain ∧ pt ∈ pairs.map Prod.fst) := by
  intro pairs
  induction pairs with
  | nil => intro st pt h; exact Or.inl h
  | cons pp rest ih =>
    intro st pt h
    simp only [List.foldl_cons] at h
    rcases ih (malStep domain st pp) pt h with h1 | h1
    · by_cases hd : pp.1 ∈ domain
      · simp only [malStep, if_pos hd] at h1
        rcases hst : st.2 with _ | m
        · rw [hst] at h1
          simp only at h1
          have hpt : pp.1 = pt := Option.some.inj h1
          subst hpt
          exact Or.inr ⟨hd, by simp⟩
        · rw [hst] at h1
          by_cases hle : |pp.2 - (1 - pp.2)| ≤ m
          · simp only [if_pos hle] at h1
            have hpt : pp.1 = pt := Option.some.inj h1
            subst hpt
            exact Or.inr ⟨hd, by simp⟩
          · simp only [if_neg hle] at h1
            exact Or.inl h1
      · simp only [malStep, if_neg hd] at h1
        exact Or.inl h1
    · exact Or.inr ⟨h1.1, List.mem_cons_of_mem _ h1.2⟩

/-! ## Claim theorems -/

/-- **C1.** On the one-point, one-motif ensemble with inclusion `[[1]]`,
`w_c = [1]`, `fpr = [0]`, `WeightedVote.probabilities` returns
`(plus / plus) + minus = 1 + exp(s⁻/denom)` — a value above 1 — and not
the specified `exp(s⁺/denom) / (exp(s⁺/denom) + exp(s⁻/denom))`: the
source's `return plus / plus + minus` omits the parenthesization the
spec prescribes. -/
theorem c1_weighted_vote_combination (expF : ℚ → ℚ) (hpos : ∀ x, 0 < expF x) :
    wvProbabilities expF [[1]] [1] [0] = [1 + expF 0]
    ∧ wvProbabilitiesSpec expF [[1]] [1] [0] = [expF 1 / (expF 1 + expF 0)]
    ∧ wvProbabilities expF [[1]] [1] [0] ≠ wvProbabilitiesSpec expF [[1]] [1] [0] := by
  have h1 : expF 1 ≠ 0 := ne_of_gt (hpos 1)
  have hcode : wvProbabilities expF [[1]] [1] [0] = [1 + expF 0] := by
    norm_num [wvProbabilities, dot, sumList, maxList, max_def, div_self h1]
  have hspec : wvProbabilitiesSpec expF [[1]] [1] [0] = [expF 1 / (expF 1 + expF 0)] := by
    norm_num [wvProbabilitiesSpec, dot, sumList, maxList, max_def]
  refine ⟨hcode, hspec, ?_⟩
  rw [hcode, hspec]
  simp only [ne_eq, List.cons.injEq, and_true]
  intro h
  have hd : 0 < expF 1 + expF 0 := by linarith [hpos 1, hpos 0]
  have hlt : expF 1 / (expF 1 + expF 0) < 1 :=
    (div_lt_one hd).mpr (by linarith [hpos 0])
  have := hpos 0
  linarith

/-- **C1 witness.** The divergence at the concrete exponential
`fun _ => 1`. -/
theorem c1_weighted_vote_combination_witness :
    wvProbabilities (fun _ => (1 : ℚ)) [[1]] [1] [0]
      ≠ wvProbabilitiesSpec (fun _ => (1 : ℚ)) [[1]] [1] [0] :=
  (c1_weighted_vote_combination (fun _ => 1) (fun _ => one_pos)).2.2

/-- **C2.** Evaluating the traversal at the spec's own example — two
vertices joined by a single weight-1 edge — `neighborhood(0, 1)` returns
the vertex set `{1}` and an *empty* edge set, not the connecting edge
(the origin is missing from the vertex set handed to `Edge.between`, so
no edge has both endpoints inside it); had the set contained both
endpoints, `between` would have returned the edge.  On the chain
`0 → 1 → 2` with weight-1 edges, vertex 2 (accumulated distance 2) is
not reached with budget 2 because the outgoing-edge recursion restarts
from `edge.source` instead of `edge.destination`. -/
theorem c2_neighborhood_eval :
    neighborhood edgeWeights edgeWeightDefault 10 ⟨[⟨0, 1, "k"⟩]⟩ 0 1 = ({1}, [])
    ∧ between ⟨[⟨0, 1, "k"⟩]⟩ {0, 1} = [⟨0, 1, "k"⟩]
    ∧ neighborhood edgeWeights edgeWeightDefault 10 ⟨[⟨0, 1, "k"⟩, ⟨1, 2, "k"⟩]⟩ 0 2
        = ({1}, []) := by
  refine ⟨by decide, by decide, by decide⟩

/-- **C3.** With one motif selecting only `pA`, after the update
sequence `update(pA, true); update(pB, false)` the stored accuracy is
`2/3`: the list comprehension in `Disjunction.update` shadows `point`,
so the prediction is computed once from the newest point instead of per
observation; the claim's closed form over the same history gives 1. -/
theorem c3_shadowed_accuracy :
    (disjUpdate imgOne 1 (disjUpdate imgOne 1 [] pA true).1 pB false).2 = [2 / 3]
    ∧ disjAccuracySpec imgOne 1
        (disjUpdate imgOne 1 (disjUpdate imgOne 1 [] pA true).1 pB false).1 = [1]
    ∧ (disjUpdate imgOne 1 (disjUpdate imgOne 1 [] pA true).1 pB false).2
        ≠ disjAccuracySpec imgOne 1
            (disjUpdate imgOne 1 (disjUpdate imgOne 1 [] pA true).1 pB false).1 := by
  have h1 : (disjUpdate imgOne 1 (disjUpdate imgOne 1 [] pA true).1 pB false).2 = [2 / 3] := by
    norm_num [disjUpdate, imgOne, mA, pA, pB, motifDomainI, rowsLookup, registerMotif,
      evaluateMotifs, rowsAppend, SparseImage.empty, List.filter]
  have h2 : disjAccuracySpec imgOne 1
      (disjUpdate imgOne 1 (disjUpdate imgOne 1 [] pA true).1 pB false).1 = [1] := by
    norm_num [disjUpdate, disjAccuracySpec, imgOne, mA, pA, pB, motifDomainI, rowsLookup,
      registerMotif, evaluateMotifs, rowsAppend, SparseImage.empty, List.filter]
  refine ⟨h1, h2, ?_⟩
  rw [h1, h2]
  simp only [ne_eq, List.cons.injEq, and_true]
  norm_num

/-- **C4 counterexample.** Mutating the image after ensemble
construction *does* change the ensemble's observable behaviour:
`_motif_map` aliases `image.motifs`, so registering a further motif
changes `size` (1 to 2), and `motif_domain` delegates to the live image,
so re-evaluating motifs changes its result (`[pA]` to `[pA, pB]`). -/
theorem c4_counterexample :
    ensembleSize (registerMotif imgOne ⟨1, mA⟩) ≠ ensembleSize imgOne
    ∧ ensembleMotifDomain (evaluateMotifs imgOne (fun _ => [pB])) ⟨0, mA⟩
        ≠ ensembleMotifDomain imgOne ⟨0, mA⟩
    ∧ ensembleSize imgOne = 1
    ∧ ensembleSize (registerMotif imgOne ⟨1, mA⟩) = 2
    ∧ ensembleMotifDomain imgOne ⟨0, mA⟩ = [pA]
    ∧ ensembleMotifDomain (evaluateMotifs imgOne (fun _ => [pB])) ⟨0, mA⟩ = [pA, pB] := by
  refine ⟨by decide, by decide, by decide, by decide, by decide, by decide⟩

/-- **C4 (amended).** The inclusion matrix is a construction-time
snapshot with dimensions exactly (|image domain|, |registered motifs|);
but `size` reads the live motif list (registering increments it) and
`motif_domain` reads the live rows (evaluation appends to its result). -/
theorem c4_amended :
    (∀ img : SparseImage,
       (mkEnsemble img).inclusion.length = (domainList img).length
       ∧ ∀ row ∈ (mkEnsemble img).inclusion, row.length = img.motifs.length)
    ∧ (∀ (img : SparseImage) (m : MotifObj),
        ensembleSize (registerMotif img m) = ensembleSize img + 1)
    ∧ (∀ (img : SparseImage) (f : MotifObj → List Point) (m : MotifObj),
        img.motifs = [m] →
        ensembleMotifDomain (evaluateMotifs img f) m
          = ensembleMotifDomain img m ++ f m) := by
  refine ⟨?_, ?_, ?_⟩
  · intro img
    constructor
    · simp [mkEnsemble, inclusionMatrix]
    · intro row hrow
      simp only [mkEnsemble, inclusionMatrix, List.mem_map] at hrow
      obtain ⟨p, -, hp⟩ := hrow
      rw [← hp]
      simp
  · intro img m
    simp [ensembleSize, registerMotif]
  · intro img f m h
    simp [ensembleMotifDomain, evaluateMotifs, motifDomainI, h, rowsLookup_rowsAppend]

/-- **C4 witness.** The live-image delegation of `motif_domain`
instantiated on the concrete one-motif image. -/
theorem c4_amended_witness :
    ensembleMotifDomain (evaluateMotifs imgOne (fun _ => [pB])) ⟨0, mA⟩
      = ensembleMotifDomain imgOne ⟨0, mA⟩ ++ [pB] :=
  c4_amended.2.2 imgOne (fun _ => [pB]) ⟨0, mA⟩ rfl

/-- **C5 counterexample.** The compiler accepts a motif whose selector
(5) is not among its vertex ids and whose edge references the undeclared
id 2, and still produces a query string — there is no rejection or
flagging. -/
theorem c5_counterexample :
    Motifs.Motif.ofJson badMotifJson = some badMotif
    ∧ badMotif.selector ∉ badMotif.vertices.map Motifs.Vertex.identifier
    ∧ (∃ e ∈ badMotif.edges,
        e.destination ∉ badMotif.vertices.map Motifs.Vertex.identifier)
    ∧ badMotif.query
        = "SELECT DISTINCT _5 FROM (SELECT id AS _1 FROM Vertex) NATURAL JOIN (SELECT source AS _1, destination AS _2 FROM Edge WHERE kind = \"e\")" := by
  refine ⟨by decide, by decide, ⟨⟨1, 2, "e"⟩, by decide, by decide⟩, by decide⟩

/-- **C5 (amended).** The compiler performs no structural validation:
construction succeeds on any well-keyed JSON regardless of structural
validity (`selector ∈ vertices` is only a documented assumption), and
`query` totally produces a `SELECT DISTINCT` on the selector's column
over the natural join of the sub-selections. -/
theorem c5_amended :
    ∀ m : Motifs.Motif,
      Motifs.Motif.ofJson (Motifs.Motif.toJson m) = some m
      ∧ m.query = "SELECT DISTINCT " ++ toSql m.selector ++ " FROM " ++
          String.intercalate " NATURAL JOIN " m.statements :=
  fun m => ⟨motif_roundtrip m, rfl⟩

/-- **C6 counterexample.** Two motif objects with identical structure
but distinct identity are *different* keys of the sparse image's rows
dictionary (`Motif` defines no structural `__eq__`/`__hash__`): the
registered object (oid 0) maps to `[pA]`, while a structurally equal
fresh object (oid 1) maps to the defaultdict's empty list. -/
theorem c6_counterexample :
    (⟨1, mA⟩ : MotifObj).data = (⟨0, mA⟩ : MotifObj).data
    ∧ motifDomainI imgOne ⟨0, mA⟩ = [pA]
    ∧ motifDomainI imgOne ⟨1, mA⟩ = []
    ∧ motifDomainI imgOne ⟨1, mA⟩ ≠ motifDomainI imgOne ⟨0, mA⟩ := by
  refine ⟨by decide, by decide, by decide, by decide⟩

/-- **C6 (amended).** The decode∘encode round trips do hold structurally
— for motifs, for points, and for a sparse image through dump followed
by load (same motif structures in order, same per-motif point rows) —
but keying is by object identity, not structural value. -/
theorem c6_roundtrips :
    (∀ m : Motifs.Motif, Motifs.Motif.ofJson (Motifs.Motif.toJson m) = some m)
    ∧ (∀ p : Point, Point.ofJson (Point.toJson p) = some p)
    ∧ (∀ img : SparseImage, ∃ img',
        loadImage (dumpImage img) = some img'
        ∧ img'.motifs.map MotifObj.data = img.motifs.map MotifObj.data
        ∧ img'.motifs.map (fun m => motifDomainI img' m)
            = img.motifs.map (fun m => motifDomainI img m)) := by
  refine ⟨motif_roundtrip, point_roundtrip, ?_⟩
  intro img
  obtain ⟨ms', rows', hload, hdata, -, hrows⟩ := loadEntries_dump img.rows img.motifs 0
  refine ⟨⟨ms', rows'⟩, ?_, hdata, ?_⟩
  · have hdump : dumpImage img
        = img.motifs.map
            (fun m => (m.data.toJson, (rowsLookup img.rows m.oid).map Point.toJson)) := rfl
    rw [loadImage, hdump, hload]
  · simpa [motifDomainI] using hrows

/-- **C7.** `statistics` computes the claim's precision (`|P ∩ T| / |P|`,
0 for empty `P`), recall (`|P ∩ T| / |T|`) and f-beta (0 when both are
0), and matches the three concrete instances. -/
theorem c7_statistics {α : Type} [DecidableEq α] (P T : Finset α) (beta : ℚ)
    (hT : T.Nonempty) :
    statistics P T beta = statisticsSpec P T beta
    ∧ statistics (∅ : Finset ℕ) {1} 1 = (0, 0, 0)
    ∧ statistics ({1} : Finset ℕ) {1} 1 = (1, 1, 1)
    ∧ statistics ({1, 2} : Finset ℕ) {1} 1 = (1 / 2, 1, 2 / 3) := by
  have hgen : statistics P T beta = statisticsSpec P T beta := by
    have hcard : ((P ∩ T).card : ℚ) + ((P \ T).card : ℚ) = (P.card : ℚ) := by
      exact_mod_cast Finset.card_inter_add_card_sdiff P T
    simp only [statistics, statisticsSpec]
    rw [Finset.inter_comm T P, hcard]
  have hi1 : statistics (∅ : Finset ℕ) {1} 1 = (0, 0, 0) := by
    norm_num [statistics]
  have hi2 : statistics ({1} : Finset ℕ) {1} 1 = (1, 1, 1) := by
    norm_num [statistics]
  have hi3 : statistics ({1, 2} : Finset ℕ) {1} 1 = (1 / 2, 1, 2 / 3) := by
    have e1 : (({1} : Finset ℕ) ∩ {1, 2}).card = 1 := by decide
    have e2 : (({1, 2} : Finset ℕ) \ {1}).card = 1 := by decide
    have e3 : ({1, 2} : Finset ℕ).card = 2 := by decide
    have e4 : ({1} : Finset ℕ).card = 1 := by decide
    norm_num [statistics, e1, e2, e3, e4]
  exact ⟨hgen, hi1, hi2, hi3⟩

/-- **C7 witness.** The code/spec agreement instantiated at the concrete
prediction `{1}` against ground truth `{1}`. -/
theorem c7_statistics_witness :
    statistics ({1} : Finset ℕ) {1} 1 = statisticsSpec ({1} : Finset ℕ) {1} 1 :=
  (c7_statistics ({1} : Finset ℕ) {1} 1 ⟨1, by decide⟩).1

/-- **C8 counterexample.** Under a configuration mapping label `"x"` to
weight 0, the resolved weight is 0 — not strictly positive — and the
traversal silently uses it (the zero-weight self-loop is followed, with
an undiminished budget); no error of any kind is raised. -/
theorem c8_counterexample :
    resolveWeight [("x", 0)] edgeWeightDefault "x" = 0
    ∧ ¬ (0 < resolveWeight [("x", 0)] edgeWeightDefault "x")
    ∧ 0 ∈ neighbors [("x", 0)] edgeWeightDefault ⟨[⟨0, 0, "x"⟩]⟩ 3 0 1 := by
  refine ⟨by decide, by decide, by decide⟩

/-- **C8 (amended).** No startup validation exists; `Edge.weight`
resolves by exact label, then the label segment before `:`, then the
default, and the result is used in traversal whatever its sign.  With
the shipped configuration every resolved weight equals 1, hence is
positive. -/
theorem c8_amended :
    (∀ kind : String, 0 < resolveWeight edgeWeights edgeWeightDefault kind)
    ∧ (∀ (wts : List (String × ℤ)) (dflt : ℤ) (kind : String) (w : ℤ),
        lookupKey wts kind = some w → resolveWeight wts dflt kind = w)
    ∧ (∀ (wts : List (String × ℤ)) (dflt : ℤ) (kind : String),
        lookupKey wts kind = none → lookupKey wts (kindRoot kind) = none →
        resolveWeight wts dflt kind = dflt) := by
  refine ⟨?_, ?_, ?_⟩
  · intro kind
    have h1 : ∀ (s : String) (w : ℤ), lookupKey edgeWeights s = some w → w = 1 := by
      intro s w h
      simp only [edgeWeights, lookupKey] at h
      split_ifs at h <;> simp_all
    rcases hk : lookupKey edgeWeights kind with _ | w
    · rcases hr : lookupKey edgeWeights (kindRoot kind) with _ | w2
      · simp [resolveWeight, hk, hr, edgeWeightDefault]
      · have := h1 _ _ hr
        simp [resolveWeight, hk, hr, this]
    · have := h1 _ _ hk
      simp [resolveWeight, hk, this]
  · intro wts dflt kind w h
    simp [resolveWeight, h]
  · intro wts dflt kind h1 h2
    simp [resolveWeight, h1, h2]

/-- **C8 witness.** The exact-lookup branch of the resolution chain at
the shipped configuration. -/
theorem c8_amended_witness :
    resolveWeight edgeWeights edgeWeightDefault "motel" = 1 :=
  c8_amended.2.1 edgeWeights edgeWeightDefault "motel" 1 (by decide)

/-- **C9 counterexample.** A reachable state in which *no* motif is
relevant: on the one-motif image, a single `update(pA, false)` drops the
motif's accuracy to `1/2 < 0.7`, after which `MajorityVote.probabilities`
divides by `size = 0` — the result is not a value in `[0, 1]` (NumPy
produces NaN), modelled as `none`. -/
theorem c9_counterexample :
    mvProbabilities (inclusionMatrix imgOne) (disjUpdate imgOne 1 [] pA false).2
      = [none] := by
  norm_num [mvProbabilities, inclusionMatrix, domainList, disjUpdate, imgOne, mA, pA,
    motifDomainI, rowsLookup, registerMotif, evaluateMotifs, rowsAppend,
    SparseImage.empty, List.filter, relevantMotifs, accuracyThreshold, npDiv,
    sumList, dot]

/-- **C9 (amended).** Whenever at least one motif is relevant,
`MajorityVote.probabilities` returns, per point, the number of relevant
motifs selecting it divided by the number of relevant motifs, and every
returned value lies in `[0, 1]`. -/
theorem c9_majority_vote (img : SparseImage) (accuracies : List ℚ)
    (hrel : 0 < sumList (relevantMotifs accuracies)) :
    mvProbabilities (inclusionMatrix img) accuracies
      = (inclusionMatrix img).map
          (fun row => some (dot row (relevantMotifs accuracies)
            / sumList (relevantMotifs accuracies)))
    ∧ ∀ q ∈ mvProbabilities (inclusionMatrix img) accuracies,
        ∃ v, q = some v ∧ 0 ≤ v ∧ v ≤ 1 := by
  have hne : sumList (relevantMotifs accuracies) ≠ 0 := ne_of_gt hrel
  constructor
  · simp [mvProbabilities, List.map_map, npDiv, hne, Function.comp]
  · intro q hq
    simp only [mvProbabilities, List.map_map, List.mem_map, Function.comp] at hq
    obtain ⟨row, hrow, hq⟩ := hq
    have h01 := inclusionMatrix_mem img row hrow
    have hx0 : ∀ x ∈ row, 0 ≤ x := by
      intro x hx; rcases h01 x hx with h | h <;> rw [h] <;> norm_num
    have hx1 : ∀ x ∈ row, x ≤ 1 := by
      intro x hx; rcases h01 x hx with h | h <;> rw [h] <;> norm_num
    have hy0 : ∀ y ∈ relevantMotifs accuracies, 0 ≤ y := by
      intro y hy; rcases relevantMotifs_mem accuracies y hy with h | h <;> rw [h] <;> norm_num
    refine ⟨dot row (relevantMotifs accuracies) / sumList (relevantMotifs accuracies),
      ?_, ?_, ?_⟩
    · rw [← hq]
      simp [npDiv, hne]
    · exact div_nonneg (dot_nonneg _ _ hx0 hy0) (le_of_lt hrel)
    · rw [div_le_one hrel]
      exact dot_le_sumList _ _ hx1 hy0

/-- **C9 witness.** The bound instantiated on the one-motif image with a
fully accurate motif, whose single probability is 1. -/
theorem c9_majority_vote_witness :
    ∃ v, (some 1 : Option ℚ) = some v ∧ 0 ≤ v ∧ v ≤ 1 :=
  (c9_majority_vote imgOne [1]
      (by norm_num [sumList, relevantMotifs, accuracyThreshold])).2
    (some 1)
    (by norm_num [mvProbabilities, inclusionMatrix, domainList, imgOne, mA, pA,
      motifDomainI, rowsLookup, registerMotif, evaluateMotifs, rowsAppend,
      SparseImage.empty, relevantMotifs, accuracyThreshold, npDiv, sumList, dot])

/-- **C10.** `min_absolute_logit` only considers points of the
ensemble's domain (`probabilities_per_point` pairs): on any non-empty
pool containing no domain point it returns `None`, and a returned point
always belongs to both the pool and the domain. -/
theorem c10_min_absolute_logit :
    (∀ (pointMap : List Point) (probs : List ℚ) (pool : List Point),
       pool ≠ [] → (∀ p ∈ pool, p ∉ pointMap) →
       minAbsoluteLogit (pointMap.zip probs) pool = none)
    ∧ (∀ (pointMap : List Point) (probs : List ℚ) (pool : List Point) (pt : Point),
       minAbsoluteLogit (pointMap.zip probs) pool = some pt →
       pt ∈ pool ∧ pt ∈ pointMap) := by
  constructor
  · intro pointMap probs pool _ hdisj
    have h : ∀ pp ∈ pointMap.zip probs, pp.1 ∉ pool := by
      intro pp hpp hmem
      exact hdisj pp.1 hmem (List.of_mem_zip hpp).1
    unfold minAbsoluteLogit
    rw [foldl_malStep_skip pool (pointMap.zip probs) (none, none) h]
  · intro pointMap probs pool pt h
    unfold minAbsoluteLogit at h
    rcases foldl_malStep_mem pool (pointMap.zip probs) (none, none) pt h with h1 | h1
    · exact absurd h1 (by simp)
    · refine ⟨h1.1, ?_⟩
      obtain ⟨pp, hpp, hfst⟩ := List.mem_map.mp h1.2
      rw [← hfst]
      exact (List.of_mem_zip hpp).1

/-- **C10 witness.** A pool disjoint from the domain yields `None`. -/
theorem c10_min_absolute_logit_witness :
    minAbsoluteLogit ([pA].zip [1 / 2]) [pB] = none :=
  c10_min_absolute_logit.1 [pA] [1 / 2] [pB] (by simp) (by decide)

end Motel
